import Mathlib

/-!
Verification development for the remote-mcp-server repository.

Shallow embedding of the share-token store (src/src/share-store.ts and the
variant in src/unnamed/part_002), the /mcp routing logic of the worker entry
point (src/unnamed/part_005), the JSON-RPC registry client
(src/src/xano-client.ts) and its axios variant (src/unnamed/part_000), the
JSON-RPC POST dispatcher and the authentication phase of
MyMCP.processRequest (src/src/index.ts), the connect override of
src/unnamed/part_007, and the SSE event trace of MyMCP.onSSE
(src/src/index.ts) and transport.start (src/unnamed/part_010).

Conventions: epoch-millisecond instants are Nat; the JavaScript Map backing
the in-memory store is an association list with Map-equivalent lookup
semantics; fallible operations return Except; the durable-object actor bound
as SHARE_DO is the ShareDo class of src/src/utils.ts, whose per-token
storage holds a single record under the "data" key (see shareDoGet,
shareDoSave, shareDoRevoke).
-/

/-- ShareRecord from src/src/share-store.ts lines 5-9: the stored triple of
real credential, user id and expiry instant (epoch ms). -/
structure ShareRecord where
  xanoToken : String
  userId : String
  expiresAt : Nat
deriving Repr, DecidableEq

/-- SHARE_TTL_MS from src/src/share-store.ts line 11: 24 hours in ms. -/
def SHARE_TTL_MS : Nat := 24 * 60 * 60 * 1000

/-- The in-memory `store` Map of share-store.ts, as an association list.
All operations below keep Map-equivalent semantics: lookup finds the entry
for a key, set replaces the entry for a key, delete removes it. -/
abbrev Store := List (String × ShareRecord)

/-- Map.get: the record stored under a token, if any. -/
def lookupShare : Store → String → Option ShareRecord
  | [], _ => none
  | (k, v) :: rest, t => if k = t then some v else lookupShare rest t

/-- Map.delete: remove the entry stored under a token. -/
def deleteShare : Store → String → Store
  | [], _ => []
  | (k, v) :: rest, t =>
    if k = t then deleteShare rest t else (k, v) :: deleteShare rest t

/-- Map.set: store a record under a token, replacing any previous entry. -/
def setShare (s : Store) (t : String) (v : ShareRecord) : Store :=
  (t, v) :: deleteShare s t

/-- saveShare, in-memory branch (src/src/share-store.ts lines 33-37):
`store.set(token, \x7b xanoToken, userId, expiresAt: Date.now() + SHARE_TTL_MS \x7d)`.
`now` is the value of Date.now() at the call. -/
def saveShare (s : Store) (token xanoToken userId : String) (now : Nat) : Store :=
  setShare s token ⟨xanoToken, userId, now + SHARE_TTL_MS⟩

/-- getShare, in-memory branch (src/src/share-store.ts lines 56-62): return
the record if present and unexpired; an expired record is lazily deleted and
undefined is returned. The result pairs the returned value with the store
after the call. -/
def getShare (s : Store) (token : String) (now : Nat) :
    Option ShareRecord × Store :=
  match lookupShare s token with
  | none => (none, s)
  | some r =>
    if r.expiresAt < now then (none, deleteShare s token) else (some r, s)

/-- revokeShare, in-memory branch (src/src/share-store.ts line 76):
`store.delete(token)`. -/
def revokeShare (s : Store) (token : String) : Store :=
  deleteShare s token

/-- purgeExpired (src/src/share-store.ts lines 80-85): delete every entry
whose expiresAt is strictly below now. -/
def purgeExpired : Store → Nat → Store
  | [], _ => []
  | (k, r) :: rest, now =>
    if r.expiresAt < now then purgeExpired rest now
    else (k, r) :: purgeExpired rest now

/-- Outcome of the durable-object stub fetch of "https://do/get": a 200
response carrying a record, a non-200 response, or a rejected fetch
(network failure / unreachable store). -/
inductive DOResponse where
  | success : ShareRecord → DOResponse
  | notFound : DOResponse
  | failure : DOResponse
deriving Repr, DecidableEq

/-- ShareDo.fetch, "/get" branch (src/src/utils.ts lines 46-53): each token
names its own actor via idFromName(token), and the actor's storage holds one
record under the "data" key. The /get handler reads it (`|| null`), answers
404 when it is absent or its expiresAt is strictly below Date.now(), and
otherwise answers 200 with the JSON record. `data` is the stored value of
the actor addressed for the token, `now` the value of Date.now(). -/
def shareDoGet (data : Option ShareRecord) (now : Nat) : DOResponse :=
  match data with
  | some r => if r.expiresAt < now then .notFound else .success r
  | none => .notFound

/-- ShareDo.fetch, "/save" branch (src/src/utils.ts lines 33-45): store the
posted credential and user id under "data" with
expiresAt = Date.now() + 24 * 60 * 60 * 1000, replacing any previous value. -/
def shareDoSave (xanoToken userId : String) (now : Nat) : Option ShareRecord :=
  some ⟨xanoToken, userId, now + 24 * 60 * 60 * 1000⟩

/-- ShareDo.fetch, "/revoke" branch (src/src/utils.ts lines 54-57): delete
the "data" entry unconditionally. -/
def shareDoRevoke : Option ShareRecord :=
  none

/-- getShare, durable-object branch of src/src/share-store.ts lines 48-54:
on a 200 response the body is the record; any other status yields undefined.
There is no try/catch, so a rejected fetch propagates to the caller
(modelled as Except.error). -/
def getShareDO (resp : DOResponse) : Except Unit (Option ShareRecord) :=
  match resp with
  | .success r => .ok (some r)
  | .notFound => .ok none
  | .failure => .error ()

/-- getShare of the variant in src/unnamed/part_002 lines 67-106: check the
in-memory store first (deleting an expired entry); only on a memory miss and
with SHARE_DO bound consult the durable object, caching a 200 response body
back into memory; a non-200 response falls through to undefined, and a
rejected fetch is caught, logged and also falls through to undefined. The
result pairs the returned value with the memory store after the call. -/
def getShareP2 (mem : Store) (token : String) (now : Nat) (hasDO : Bool)
    (resp : DOResponse) : Option ShareRecord × Store :=
  match lookupShare mem token with
  | some r =>
    if r.expiresAt < now then (none, deleteShare mem token) else (some r, mem)
  | none =>
    if hasDO then
      match resp with
      | .success r => (some r, setShare mem token r)
      | .notFound => (none, mem)
      | .failure => (none, mem)
    else (none, mem)

/-- Headers of the request forwarded upstream by the /mcp route. -/
structure ForwardedHeaders where
  authorization : String
  xUserId : String
deriving Repr, DecidableEq

/-- The /mcp routing of the worker fetch in src/unnamed/part_005 lines
941-961, after the bearer value has been looked up as a share token: if the
lookup resolved, the forwarded request carries
`authorization: Bearer $share.xanoToken` and `x-user-id: share.userId`;
otherwise the original request headers are forwarded unchanged (legacy
direct mode). -/
def mcpRoute (authHeader userIdHeader : String) (share : Option ShareRecord) :
    ForwardedHeaders :=
  match share with
  | some r => ⟨"Bearer " ++ r.xanoToken, r.userId⟩
  | none => ⟨authHeader, userIdHeader⟩

/-- res.ok of the fetch API: status in [200, 300). -/
def resOk (status : Nat) : Bool :=
  decide (200 ≤ status) && decide (status < 300)

/-- An HTTP response to a registry call, with the parsed JSON body split
into the optional JSON-RPC error field and the decoded result payload of
type α. -/
structure RpcHttpResponse (α : Type) where
  status : Nat
  errorField : Option String
  result : α
deriving Repr, DecidableEq

/-- Outcome of an outbound fetch/axios call: a response, or a rejected
promise (network failure). -/
inductive NetOutcome (α : Type) where
  | response : RpcHttpResponse α → NetOutcome α
  | netFailure : String → NetOutcome α
deriving Repr, DecidableEq

/-- XanoClient.jsonRpcRequest (src/src/xano-client.ts lines 43-66): throw
`Failed JSON-RPC call: $status` on a non-ok status, throw
`JSON-RPC error: $e` when the body has an error field, otherwise return the
result; the catch block logs the method and rethrows the same error. -/
def jsonRpcRequest {α : Type} (method : String) (out : NetOutcome α) :
    Except String α :=
  match method, out with
  | _, .netFailure msg => .error msg
  | _, .response r =>
    if resOk r.status then
      match r.errorField with
      | some e => .error ("JSON-RPC error: " ++ e)
      | none => .ok r.result
    else .error ("Failed JSON-RPC call: " ++ toString r.status)

/-- XanoClient.getTools (src/src/xano-client.ts lines 69-71): delegates to
jsonRpcRequest with the method string of tools/list. -/
def getTools {α : Type} (out : NetOutcome α) : Except String α :=
  jsonRpcRequest "tools/list" out

/-- XanoClient.executeTool (src/src/xano-client.ts lines 126-128): delegates
to jsonRpcRequest with the tool name as the method. -/
def executeToolRpc {α : Type} (toolName : String) (out : NetOutcome α) :
    Except String α :=
  jsonRpcRequest toolName out

/-- getTools of the axios variant in src/unnamed/part_000 lines 185-197:
axios rejects on a non-2xx status, and the catch block logs the error and
returns an empty array; on success it returns response.data (the tool
list). -/
def axiosGetTools (out : NetOutcome (List String)) : List String :=
  match out with
  | .netFailure _ => []
  | .response r => if resOk r.status then r.result else []

/-- Outcome of the authentication phase of MyMCP.processRequest. -/
inductive ProcOutcome where
  | proceed : ProcOutcome
  | errorResponse (status : Nat) (code : Int) : ProcOutcome
deriving Repr, DecidableEq

/-- The authenticated branch of MyMCP.processRequest (src/src/index.ts lines
464-523): when auth is provided, registerSession is awaited; on its failure
the handler returns a 401 response with JSON-RPC error code -32000 and does
not proceed. On success, registerTools is attempted inside its own
try/catch whose failure is only logged, and processing proceeds either
way. Without auth the handler proceeds directly. -/
def processAuthPhase (authProvided : Bool)
    (registerSessionOutcome toolRegOutcome : Except String Unit) :
    ProcOutcome :=
  if authProvided then
    match registerSessionOutcome with
    | .ok _ =>
      match toolRegOutcome with
      | .ok _ => .proceed
      | .error _ => .proceed
    | .error _ => .errorResponse 401 (-32000)
  else .proceed

/-- Result of the connect override of src/unnamed/part_007: whether the flow
continued to super.connect, and whether the session got registered. -/
structure ConnectResult where
  proceeded : Bool
  sessionRegistered : Bool
deriving Repr, DecidableEq

/-- connect of src/unnamed/part_007 lines 133-170: with auth present, a
registerSession failure is caught and logged ("Continue anyway as this is
non-critical") and the flow always reaches super.connect. -/
def connectAuth (hasAuth : Bool) (reg : Except String Unit) : ConnectResult :=
  if hasAuth then
    match reg with
    | .ok _ => ⟨true, true⟩
    | .error _ => ⟨true, false⟩
  else ⟨true, false⟩

/-- A parsed JSON-RPC request envelope: the method name and the id, with the
id modelled as an optional integer (none when the field is absent). -/
structure JsonRpcReq where
  method : String
  id : Option Int
deriving Repr, DecidableEq

/-- The JavaScript expression `jsonRpcRequest.id || 1` used for every
response id in the POST dispatcher: an absent id and the falsy integer 0 are
replaced by 1. -/
def idOrOne : Option Int → Int
  | none => 1
  | some v => if v = 0 then 1 else v

/-- A JSON-RPC response object as produced by the POST dispatcher: a success
envelope or an error envelope with its code and the HTTP status used. -/
inductive RpcResponse where
  | success (id : Int) : RpcResponse
  | failure (code : Int) (id : Int) (httpStatus : Nat) : RpcResponse
deriving Repr, DecidableEq

/-- The method dispatch of the POST branch of MyMCP.processRequest
(src/src/index.ts lines 569-695): methods named by the string literals for
initialize, getTools and executeTool are handled; executeTool answers
-32602 without a tool name and -32603 with HTTP 500 when execution throws;
every other method falls to the unknown-method branch answering -32601 with
HTTP 400. Every response id is `jsonRpcRequest.id || 1`. -/
def dispatchMethod (req : JsonRpcReq) (toolNameParam : Option String)
    (execOutcome : Except String Unit) : RpcResponse :=
  if req.method = "initialize" then .success (idOrOne req.id)
  else if req.method = "getTools" then .success (idOrOne req.id)
  else if req.method = "executeTool" then
    match toolNameParam with
    | none => .failure (-32602) (idOrOne req.id) 400
    | some _ =>
      match execOutcome with
      | .ok _ => .success (idOrOne req.id)
      | .error _ => .failure (-32603) (idOrOne req.id) 500
  else .failure (-32601) (idOrOne req.id) 400

/-- The ordered trace of event writes issued on a streaming connection by
MyMCP.onSSE (src/src/index.ts lines 346-396) and by transport.start plus the
keep-alive timer (src/unnamed/part_010 lines 73-123): the server_info,
tools_list and ready writes are issued in that order, and the interval
emitting ping events is installed only after the ready write, so the n ping
writes of a connection all follow it. -/
def onSSETrace (nPings : Nat) : List String :=
  ["server_info", "tools_list", "ready"] ++ List.replicate nPings "ping"

/-- Boolean form of: the token is absent from the store, or its stored
expiry instant has elapsed at time now. -/
def expiredOrAbsent (s : Store) (token : String) (now : Nat) : Bool :=
  match lookupShare s token with
  | some r => decide (r.expiresAt < now)
  | none => true

/-- Boolean form of: the "data" slot of the token's ShareDo actor is empty,
or its stored expiry instant has elapsed at time now. -/
def expiredOrNone (data : Option ShareRecord) (now : Nat) : Bool :=
  match data with
  | some r => decide (r.expiresAt < now)
  | none => true

-- Association-list lemmas matching JavaScript Map semantics.

theorem lookupShare_setShare_self (s : Store) (t : String) (v : ShareRecord) :
    lookupShare (setShare s t v) t = some v := by
  simp [setShare, lookupShare]

theorem lookupShare_deleteShare_self (s : Store) (t : String) :
    lookupShare (deleteShare s t) t = none := by
  induction s with
  | nil => rfl
  | cons p rest ih =>
    obtain ⟨k, v⟩ := p
    by_cases h : k = t <;> simp [deleteShare, lookupShare, h, ih]

theorem lookupShare_deleteShare_ne (s : Store) (t u : String) (h : u ≠ t) :
    lookupShare (deleteShare s t) u = lookupShare s u := by
  induction s with
  | nil => rfl
  | cons p rest ih =>
    obtain ⟨k, v⟩ := p
    by_cases hk : k = t
    · subst hk
      simp [deleteShare, lookupShare, Ne.symm h, ih]
    · by_cases hk2 : k = u <;> simp [deleteShare, lookupShare, hk, hk2, h, ih]

theorem deleteShare_deleteShare (s : Store) (t : String) :
    deleteShare (deleteShare s t) t = deleteShare s t := by
  induction s with
  | nil => rfl
  | cons p rest ih =>
    obtain ⟨k, v⟩ := p
    by_cases h : k = t <;> simp [deleteShare, h, ih]

theorem deleteShare_of_lookup_none (s : Store) (t : String)
    (h : lookupShare s t = none) : deleteShare s t = s := by
  induction s with
  | nil => rfl
  | cons p rest ih =>
    obtain ⟨k, v⟩ := p
    by_cases hk : k = t
    · simp [lookupShare, hk] at h
    · simp [lookupShare, hk] at h
      simp [deleteShare, hk, ih h]

theorem lookupShare_purgeExpired_none (s : Store) (now : Nat) (t : String)
    (h : lookupShare s t = none) :
    lookupShare (purgeExpired s now) t = none := by
  induction s with
  | nil => rfl
  | cons p rest ih =>
    obtain ⟨k, v⟩ := p
    by_cases hk : k = t
    · simp [lookupShare, hk] at h
    · simp [lookupShare, hk] at h
      by_cases hv : v.expiresAt < now <;>
        simp [purgeExpired, hv, lookupShare, hk, ih h]

theorem lookupShare_eq_none_of_not_mem (s : Store) (t : String)
    (h : t ∉ s.map Prod.fst) : lookupShare s t = none := by
  induction s with
  | nil => rfl
  | cons p rest ih =>
    obtain ⟨k, v⟩ := p
    simp only [List.map_cons, List.mem_cons, not_or] at h
    have hk : ¬ k = t := fun hk => h.1 hk.symm
    simp [lookupShare, hk, ih h.2]

theorem lookupShare_purgeExpired (s : Store) (now : Nat) (t : String)
    (hnd : (s.map Prod.fst).Nodup) :
    lookupShare (purgeExpired s now) t =
      match lookupShare s t with
      | some r => if r.expiresAt < now then none else some r
      | none => none := by
  induction s with
  | nil => rfl
  | cons p rest ih =>
    obtain ⟨k, v⟩ := p
    simp only [List.map_cons, List.nodup_cons] at hnd
    by_cases hk : k = t
    · subst hk
      by_cases hv : v.expiresAt < now
      · have hnone : lookupShare rest k = none :=
          lookupShare_eq_none_of_not_mem rest k hnd.1
        simp [purgeExpired, hv, lookupShare,
          lookupShare_purgeExpired_none rest now k hnone]
      · simp [purgeExpired, hv, lookupShare]
    · by_cases hv : v.expiresAt < now <;>
        simp [purgeExpired, hv, lookupShare, hk, ih hnd.2]

/-- C1: a share token whose stored expiry instant has elapsed (or that is
absent) never resolves to a record again, without any explicit revoke, in
each backend: the in-memory getShare, the durable-object branch of getShare
in share-store.ts answering through the /get handler of the ShareDo actor
of src/src/utils.ts, and the memory-first getShare variant of part_002. -/
theorem expired_token_never_resolves
    (mem : Store) (data : Option ShareRecord) (token : String) (now : Nat)
    (hasDO : Bool)
    (hmem : expiredOrAbsent mem token now = true)
    (hdata : expiredOrNone data now = true) :
    (getShare mem token now).1 = none ∧
    getShareDO (shareDoGet data now) = Except.ok none ∧
    (getShareP2 mem token now hasDO (shareDoGet data now)).1 = none := by
  unfold expiredOrAbsent at hmem
  unfold expiredOrNone at hdata
  have hdoRes : shareDoGet data now = DOResponse.notFound := by
    unfold shareDoGet
    cases data with
    | none => rfl
    | some r =>
      simp only [decide_eq_true_eq] at hdata
      simp [hdata]
  refine ⟨?_, ?_, ?_⟩
  · cases h : lookupShare mem token with
    | none => simp [getShare, h]
    | some r =>
      rw [h] at hmem
      simp only [decide_eq_true_eq] at hmem
      simp [getShare, h, hmem]
  · rw [hdoRes]; rfl
  · rw [hdoRes]
    cases h : lookupShare mem token with
    | none => cases hasDO <;> simp [getShareP2, h]
    | some r =>
      rw [h] at hmem
      simp only [decide_eq_true_eq] at hmem
      simp [getShareP2, h, hmem]

/-- Witness for C1 at a concrete expired record in both the in-memory map
and the actor storage. -/
theorem expired_token_never_resolves_witness :
    (getShare [("T", ⟨"cred", "u1", 5⟩)] "T" 10).1 = none ∧
    getShareDO (shareDoGet (some ⟨"cred", "u1", 5⟩) 10) = Except.ok none ∧
    (getShareP2 [("T", ⟨"cred", "u1", 5⟩)] "T" 10 true
        (shareDoGet (some ⟨"cred", "u1", 5⟩) 10)).1 = none :=
  expired_token_never_resolves [("T", ⟨"cred", "u1", 5⟩)]
    (some ⟨"cred", "u1", 5⟩) "T" 10 true (by decide) (by decide)

/-- C2: on a failing durable-object fetch, the getShare of share-store.ts
propagates the rejection, while the getShare variant of part_002 catches it
and answers not-found with the memory store unchanged: the store failure is
silently converted into the same outcome as an absent token. -/
theorem store_failure_silently_not_found :
    getShareDO DOResponse.failure = Except.error () ∧
    getShareP2 [] "T" 0 true DOResponse.failure = (none, []) :=
  ⟨rfl, rfl⟩

/-- C3: immediately after saveShare stores a token with a non-empty
credential and user id, getShare returns exactly the record holding that
credential, that user id, and expiry = creation time + 24 hours. -/
theorem saveShare_then_getShare
    (s : Store) (token c u : String) (t : Nat) (hc : c ≠ "") (hu : u ≠ "") :
    (getShare (saveShare s token c u t) token t).1 =
      some ⟨c, u, t + SHARE_TTL_MS⟩ := by
  have hlt : ¬ (t + SHARE_TTL_MS < t) := by
    simp [SHARE_TTL_MS]
  simp [saveShare, getShare, lookupShare_setShare_self, hlt]

/-- Witness for C3 on the scenario of the spec. -/
theorem saveShare_then_getShare_witness :
    (getShare (saveShare [] "T" "xano-abc" "42" 0) "T" 0).1 =
      some ⟨"xano-abc", "42", 0 + SHARE_TTL_MS⟩ :=
  saveShare_then_getShare [] "T" "xano-abc" "42" 0 (by decide) (by decide)

/-- C5: after revokeShare, getShare answers not-found at any time; revoking
twice equals revoking once; and revoking an absent token leaves the store
exactly as it was (no error, nothing else changed). -/
theorem revokeShare_spec (s : Store) (token : String) (now : Nat) :
    (getShare (revokeShare s token) token now).1 = none ∧
    revokeShare (revokeShare s token) token = revokeShare s token ∧
    (lookupShare s token = none → revokeShare s token = s) := by
  refine ⟨?_, ?_, ?_⟩
  · simp [getShare, revokeShare, lookupShare_deleteShare_self]
  · exact deleteShare_deleteShare s token
  · exact deleteShare_of_lookup_none s token

/-- Witness for C5 at a concrete store. -/
theorem revokeShare_spec_witness :
    (getShare (revokeShare [("T", ⟨"cred", "u1", 99⟩)] "T") "T" 0).1 = none :=
  (revokeShare_spec [("T", ⟨"cred", "u1", 99⟩)] "T" 0).1

/-- C10: each keyed in-memory operation leaves every other key untouched
(saveShare, getShare including its lazy eviction, revokeShare), and
purgeExpired deletes exactly the entries whose expiry has elapsed. -/
theorem share_ops_frame
    (s : Store) (t tOther c u : String) (now : Nat)
    (hne : tOther ≠ t) (hnd : (s.map Prod.fst).Nodup) :
    lookupShare (saveShare s t c u now) tOther = lookupShare s tOther ∧
    lookupShare (getShare s t now).2 tOther = lookupShare s tOther ∧
    lookupShare (revokeShare s t) tOther = lookupShare s tOther ∧
    ∀ tok, lookupShare (purgeExpired s now) tok =
      match lookupShare s tok with
      | some r => if r.expiresAt < now then none else some r
      | none => none := by
  refine ⟨?_, ?_, ?_, ?_⟩
  · simp [saveShare, setShare, lookupShare, Ne.symm hne,
      lookupShare_deleteShare_ne s t tOther hne]
  · unfold getShare
    cases h : lookupShare s t with
    | none => rfl
    | some r =>
      by_cases hv : r.expiresAt < now <;>
        simp [hv, lookupShare_deleteShare_ne s t tOther hne]
  · exact lookupShare_deleteShare_ne s t tOther hne
  · intro tok
    exact lookupShare_purgeExpired s now tok hnd

/-- Witness for C10 at a concrete two-entry store. -/
theorem share_ops_frame_witness :
    lookupShare (revokeShare [("a", ⟨"c1", "u1", 10⟩), ("b", ⟨"c2", "u2", 3⟩)] "a") "b" =
      lookupShare [("a", ⟨"c1", "u1", 10⟩), ("b", ⟨"c2", "u2", 3⟩)] "b" :=
  (share_ops_frame [("a", ⟨"c1", "u1", 10⟩), ("b", ⟨"c2", "u2", 3⟩)]
    "a" "b" "cx" "ux" 7 (by decide) (by decide)).2.2.1

-- Left cancellation for String append, used to separate the forwarded
-- credential from the inbound bearer value.

theorem string_append_left_cancel {p a b : String} (h : p ++ a = p ++ b) :
    a = b := by
  have hd : p.data ++ a.data = p.data ++ b.data := by
    have hq := congrArg String.data h
    simpa [String.data_append] using hq
  have hab : a.data = b.data := List.append_cancel_left hd
  cases a
  cases b
  exact congrArg String.mk hab

/-- C4: when the bearer value of an inbound /mcp request resolves as a share
token, the forwarded request carries the stored real credential in the
Authorization header and the stored user id in x-user-id, and the share
token itself is not what is forwarded as the upstream bearer credential. -/
theorem mcp_share_rewrites_headers
    (s : Store) (bearer authHeader uidHeader : String) (now : Nat)
    (r : ShareRecord) (hres : (getShare s bearer now).1 = some r) :
    mcpRoute authHeader uidHeader (getShare s bearer now).1 =
      ⟨"Bearer " ++ r.xanoToken, r.userId⟩ ∧
    (bearer ≠ r.xanoToken →
      (mcpRoute authHeader uidHeader (getShare s bearer now).1).authorization ≠
        "Bearer " ++ bearer) := by
  rw [hres]
  refine ⟨rfl, ?_⟩
  intro hne hcontra
  simp only [mcpRoute] at hcontra
  exact hne (string_append_left_cancel hcontra).symm

/-- Witness for C4 at a concrete resolved share. -/
theorem mcp_share_rewrites_headers_witness :
    mcpRoute "Bearer S" "" (getShare [("S", ⟨"real-cred", "77", 100⟩)] "S" 0).1 =
      ⟨"Bearer " ++ "real-cred", "77"⟩ :=
  (mcp_share_rewrites_headers [("S", ⟨"real-cred", "77", 100⟩)] "S"
    "Bearer S" "" 0 ⟨"real-cred", "77", 100⟩ (by decide)).1

/-- C6 counterexample: the axios-variant getTools of part_000 answers an
HTTP 500 response, and a rejected request, with an empty tool list instead
of an error; additionally the error raised by the fetch-based jsonRpcRequest
is independent of the method, so the raised message itself identifies only
the status, not the method. -/
theorem axios_getTools_swallows_error :
    axiosGetTools (NetOutcome.response ⟨500, none, ["sample-tool"]⟩) = [] ∧
    axiosGetTools (NetOutcome.netFailure "connection refused") = [] ∧
    jsonRpcRequest "tools/list"
        (NetOutcome.response (⟨500, none, "p"⟩ : RpcHttpResponse String)) =
      jsonRpcRequest "session/create"
        (NetOutcome.response (⟨500, none, "p"⟩ : RpcHttpResponse String)) :=
  ⟨rfl, rfl, rfl⟩

/-- C6 amended: the fetch-based jsonRpcRequest, used by every method of the
XanoClient of src/src/xano-client.ts, returns a payload only for a 2xx
response without a JSON-RPC error field, raises an error naming the status
on a non-ok status, raises an error naming the error field when present,
and propagates a network failure. -/
theorem jsonRpcRequest_error_contract {α : Type} (method : String)
    (out : NetOutcome α) :
    (∀ x, jsonRpcRequest method out = Except.ok x →
      ∃ r, out = NetOutcome.response r ∧ resOk r.status = true ∧
        r.errorField = none ∧ x = r.result) ∧
    (∀ r, out = NetOutcome.response r → resOk r.status = false →
      jsonRpcRequest method out =
        Except.error ("Failed JSON-RPC call: " ++ toString r.status)) ∧
    (∀ r e, out = NetOutcome.response r → resOk r.status = true →
      r.errorField = some e →
      jsonRpcRequest method out = Except.error ("JSON-RPC error: " ++ e)) ∧
    (∀ msg, out = NetOutcome.netFailure msg →
      jsonRpcRequest method out = Except.error msg) := by
  refine ⟨?_, ?_, ?_, ?_⟩
  · intro x hx
    cases out with
    | netFailure m => simp [jsonRpcRequest] at hx
    | response r =>
      refine ⟨r, rfl, ?_⟩
      by_cases hok : resOk r.status
      · cases he : r.errorField with
        | some e => simp [jsonRpcRequest, hok, he] at hx
        | none =>
          simp [jsonRpcRequest, hok, he] at hx
          exact ⟨hok, rfl, hx.symm⟩
      · simp [jsonRpcRequest, hok] at hx
  · intro r hr hok
    subst hr
    simp [jsonRpcRequest, hok]
  · intro r e hr hok he
    subst hr
    simp [jsonRpcRequest, hok, he]
  · intro msg hm
    subst hm
    rfl

/-- Witness for the amended C6 at a failing status. -/
theorem jsonRpcRequest_error_contract_witness :
    jsonRpcRequest "tools/list"
        (NetOutcome.response (⟨500, none, "payload"⟩ : RpcHttpResponse String)) =
      Except.error ("Failed JSON-RPC call: " ++ toString 500) :=
  (jsonRpcRequest_error_contract "tools/list"
    (NetOutcome.response (⟨500, none, "payload"⟩ : RpcHttpResponse String))).2.1
    ⟨500, none, "payload"⟩ rfl (by decide)

/-- C7 counterexample: in MyMCP.processRequest, a failed registerSession
call on an authenticated request yields the 401 error response with
JSON-RPC code -32000 — the request is aborted, not continued. -/
theorem registerSession_failure_aborts :
    processAuthPhase true (Except.error "register failed") (Except.ok ()) =
      ProcOutcome.errorResponse 401 (-32000) ∧
    ProcOutcome.errorResponse 401 (-32000) ≠ ProcOutcome.proceed :=
  ⟨rfl, by decide⟩

/-- C7 amended: the connect override of part_007 always proceeds to
super.connect whether or not session registration fails, and in
processRequest a tool-registration failure after a successful
registerSession is caught and processing proceeds; but a registerSession
failure itself aborts the request with a 401 JSON-RPC -32000 error. -/
theorem bookkeeping_best_effort
    (hasAuth : Bool) (reg : Except String Unit) (e e2 : String) :
    (connectAuth hasAuth reg).proceeded = true ∧
    processAuthPhase true (Except.ok ()) (Except.error e) =
      ProcOutcome.proceed ∧
    processAuthPhase true (Except.error e2) (Except.ok ()) =
      ProcOutcome.errorResponse 401 (-32000) := by
  refine ⟨?_, rfl, rfl⟩
  cases hasAuth with
  | false => rfl
  | true => cases reg <;> rfl

/-- C8 counterexample: a well-formed unknown-method request with id 0 is
answered with error code -32601 but id 1, not the request id 0. -/
theorem unknown_method_id_zero :
    dispatchMethod ⟨"foo", some 0⟩ none (Except.ok ()) =
      RpcResponse.failure (-32601) 1 400 ∧ (0 : Int) ≠ 1 :=
  ⟨by decide, by decide⟩

/-- C8 amended: every method outside initialize, tools/list, getTools and
executeTool is answered with a single JSON-RPC error response of code
-32601, whose id is the request id whenever that id is a nonzero integer
(an absent or zero id is replaced by 1). -/
theorem unknown_method_responds_32601
    (req : JsonRpcReq) (tn : Option String) (ex : Except String Unit)
    (h1 : req.method ≠ "initialize") (h2 : req.method ≠ "tools/list")
    (h3 : req.method ≠ "getTools") (h4 : req.method ≠ "executeTool") :
    dispatchMethod req tn ex =
      RpcResponse.failure (-32601) (idOrOne req.id) 400 ∧
    ∀ v : Int, req.id = some v → v ≠ 0 → idOrOne req.id = v := by
  constructor
  · simp [dispatchMethod, h1, h3, h4]
  · intro v hv h0
    simp [idOrOne, hv, h0]

/-- Witness for the amended C8 on the unknown method of the spec scenario. -/
theorem unknown_method_responds_32601_witness :
    dispatchMethod ⟨"foo", some 7⟩ none (Except.ok ()) =
      RpcResponse.failure (-32601) (idOrOne (some 7)) 400 :=
  (unknown_method_responds_32601 ⟨"foo", some 7⟩ none (Except.ok ())
    (by decide) (by decide) (by decide) (by decide)).1

/-- C9: on the trace of event writes of a streaming connection, server_info,
tools_list and ready are issued at positions 0, 1 and 2 in that fixed order,
and every keep-alive ping write sits strictly after the ready write. -/
theorem sse_event_order (n i : Nat)
    (hp : (onSSETrace n)[i]? = some "ping") :
    (onSSETrace n)[0]? = some "server_info" ∧
    (onSSETrace n)[1]? = some "tools_list" ∧
    (onSSETrace n)[2]? = some "ready" ∧ 2 < i := by
  refine ⟨by simp [onSSETrace], by simp [onSSETrace], by simp [onSSETrace], ?_⟩
  match i with
  | 0 => simp [onSSETrace] at hp
  | 1 => simp [onSSETrace] at hp
  | 2 => simp [onSSETrace] at hp
  | (j + 3) => omega

/-- Witness for C9 on a connection with one ping. -/
theorem sse_event_order_witness :
    (onSSETrace 1)[0]? = some "server_info" ∧
    (onSSETrace 1)[1]? = some "tools_list" ∧
    (onSSETrace 1)[2]? = some "ready" ∧ 2 < 3 :=
  sse_event_order 1 3 (by decide)
